import Mathlib

/-!
Verification of the subscription store, change-detection monitors and
notification dispatcher of the napcat-plugin-bilibili-notifier repository.

The TypeScript source keeps its state in JavaScript `Map`s and plain
`Record` objects.  Both are modelled here as association lists
(`List (K × V)`): `Map.get`/record indexing is the first entry with the
key, `Map.set`/record assignment replaces the first entry in place or
appends a fresh entry at the end (JS `Map` preserves insertion order),
and `Map.delete`/the `delete` operator removes the entry.  Keys in a JS
`Map` are unique, so replacing or removing the first occurrence is
exact on every state the program can produce.
-/

namespace BiliNotifier

/-- `Map.get` / `record[k]`: the value of the first entry with key `k`. -/
def mget {K V : Type} [DecidableEq K] (k : K) : List (K × V) → Option V
  | [] => none
  | (k', v) :: rest => if k' = k then some v else mget k rest

/-- `Map.set` / `record[k] = v`: replace the first entry with key `k`
in place, or append a fresh entry at the end (JS insertion order). -/
def mset {K V : Type} [DecidableEq K] (k : K) (v : V) : List (K × V) → List (K × V)
  | [] => [(k, v)]
  | (k', v') :: rest => if k' = k then (k, v) :: rest else (k', v') :: mset k v rest

/-- `Map.delete` / `delete record[k]`: remove the entries with key `k`. -/
def mdel {K V : Type} [DecidableEq K] (k : K) (l : List (K × V)) : List (K × V) :=
  l.filter (fun p => decide (p.1 ≠ k))

theorem mget_mset_self {K V : Type} [DecidableEq K] (k : K) (v : V) (l : List (K × V)) :
    mget k (mset k v l) = some v := by
  induction l with
  | nil => simp [mget, mset]
  | cons p rest ih =>
    obtain ⟨k', v'⟩ := p
    by_cases h : k' = k <;> simp [mget, mset, h, ih]

theorem mget_mset_ne {K V : Type} [DecidableEq K] {k k' : K} (v : V) (l : List (K × V))
    (h : k' ≠ k) : mget k' (mset k v l) = mget k' l := by
  induction l with
  | nil => simp [mget, mset, Ne.symm h]
  | cons p rest ih =>
    obtain ⟨k₀, v₀⟩ := p
    by_cases h₀ : k₀ = k
    · subst h₀
      have hne : k₀ ≠ k' := Ne.symm h
      simp [mget, mset, hne]
    · simp only [mset, if_neg h₀]
      by_cases h₁ : k₀ = k' <;> simp [mget, h₁, ih]

theorem mget_mdel_self {K V : Type} [DecidableEq K] (k : K) (l : List (K × V)) :
    mget k (mdel k l) = none := by
  induction l with
  | nil => simp [mget, mdel]
  | cons p rest ih =>
    obtain ⟨k', v'⟩ := p
    by_cases h : k' = k <;> simp_all [mget, mdel, List.filter]

theorem mget_mdel_ne {K V : Type} [DecidableEq K] {k k' : K} (l : List (K × V))
    (h : k' ≠ k) : mget k' (mdel k l) = mget k' l := by
  induction l with
  | nil => simp [mdel]
  | cons p rest ih =>
    obtain ⟨k₀, v₀⟩ := p
    by_cases h₀ : k₀ = k
    · subst h₀
      have hne : k₀ ≠ k' := Ne.symm h
      simp_all [mget, mdel, List.filter, hne]
    · by_cases h₁ : k₀ = k' <;> simp_all [mget, mdel, List.filter, h₀]

theorem mem_mset {K V : Type} [DecidableEq K] {k : K} {v : V} {l : List (K × V)}
    {p : K × V} (h : p ∈ mset k v l) : p = (k, v) ∨ p ∈ l := by
  induction l with
  | nil => simpa [mset] using h
  | cons q rest ih =>
    obtain ⟨k₀, v₀⟩ := q
    by_cases h₀ : k₀ = k
    · simp only [mset, if_pos h₀, List.mem_cons] at h
      rcases h with h | h
      · exact Or.inl h
      · exact Or.inr (List.mem_cons_of_mem _ h)
    · simp only [mset, if_neg h₀, List.mem_cons] at h
      rcases h with h | h
      · exact Or.inr (by simp [h])
      · rcases ih h with h' | h'
        · exact Or.inl h'
        · exact Or.inr (List.mem_cons_of_mem _ h')

theorem mget_mem {K V : Type} [DecidableEq K] {k : K} {v : V} {l : List (K × V)}
    (h : mget k l = some v) : (k, v) ∈ l := by
  induction l with
  | nil => simp [mget] at h
  | cons p rest ih =>
    obtain ⟨k₀, v₀⟩ := p
    by_cases h₀ : k₀ = k
    · subst h₀
      have h' : v₀ = v := by simpa [mget] using h
      subst h'
      exact List.mem_cons_self _ _
    · simp only [mget, if_neg h₀] at h
      exact List.mem_cons_of_mem _ (ih h)

-- ==================== Data model (src/core/storage.ts) ====================

/-- `Streamer` record of the storage module. -/
structure Streamer where
  uid : Nat
  roomId : Nat
  uname : String
  liveStatus : Nat
  liveTime : Nat
  title : Option String := none
  face : Option String := none
  cover : Option String := none
deriving DecidableEq, Repr

/-- `GroupSubscription` record. -/
structure GroupSubscription where
  groupId : String
  streamerUids : List Nat
  enableAtAll : Bool
  enabled : Bool
  pushTemplate : Option String := none
deriving DecidableEq, Repr

/-- `UserSubscription` record. -/
structure UserSubscription where
  userId : String
  streamerUids : List Nat
deriving DecidableEq, Repr

/-- `SubscriptionIndex`: the reverse index, entity uid to subscriber ids. -/
structure SubscriptionIndex where
  streamerToGroups : List (Nat × List String)
  streamerToUsers : List (Nat × List String)
deriving DecidableEq, Repr

/-- In-memory state of the `SubscriptionStorage` class. -/
structure Storage where
  streamers : List (Nat × Streamer)
  groupSubs : List (String × GroupSubscription)
  userSubs : List (String × UserSubscription)
  index : SubscriptionIndex
deriving DecidableEq, Repr

def emptyStorage : Storage :=
  { streamers := [], groupSubs := [], userSubs := [], index := ⟨[], []⟩ }

-- ==================== Storage operations ====================

/-- `updateStreamerIndex(uid)`: rebuild the reverse-index rows of one
entity by scanning every group and user subscription. -/
def updateStreamerIndex (s : Storage) (uid : Nat) : Storage :=
  let gs := (s.groupSubs.filter (fun p => decide (uid ∈ p.2.streamerUids))).map (·.1)
  let us := (s.userSubs.filter (fun p => decide (uid ∈ p.2.streamerUids))).map (·.1)
  { s with index :=
      { streamerToGroups := mset uid gs s.index.streamerToGroups
        streamerToUsers := mset uid us s.index.streamerToUsers } }

/-- `getOrCreateGroupSub(groupId)`. -/
def getOrCreateGroupSub (s : Storage) (groupId : String) : GroupSubscription × Storage :=
  match mget groupId s.groupSubs with
  | some sub => (sub, s)
  | none =>
    let sub : GroupSubscription :=
      { groupId := groupId, streamerUids := [], enableAtAll := false, enabled := true }
    (sub, { s with groupSubs := mset groupId sub s.groupSubs })

/-- `getOrCreateUserSub(userId)`. -/
def getOrCreateUserSub (s : Storage) (userId : String) : UserSubscription × Storage :=
  match mget userId s.userSubs with
  | some sub => (sub, s)
  | none =>
    let sub : UserSubscription := { userId := userId, streamerUids := [] }
    (sub, { s with userSubs := mset userId sub s.userSubs })

def entityNotFoundMsg (uid : Nat) : String := "主播不存在: " ++ toString uid

/-- `subscribeGroup(groupId, uid)`: throws when the entity is unknown,
returns false when already subscribed, otherwise appends the uid to the
group's list and rebuilds the entity's reverse-index row. -/
def subscribeGroup (s : Storage) (groupId : String) (uid : Nat) :
    Except String (Bool × Storage) :=
  if (mget uid s.streamers).isSome then
    let (sub, s₁) := getOrCreateGroupSub s groupId
    if uid ∈ sub.streamerUids then
      .ok (false, s₁)
    else
      let sub' := { sub with streamerUids := sub.streamerUids ++ [uid] }
      let s₂ := { s₁ with groupSubs := mset groupId sub' s₁.groupSubs }
      .ok (true, updateStreamerIndex s₂ uid)
  else
    .error (entityNotFoundMsg uid)

/-- `unsubscribeGroup(groupId, uid)`: false when the group has no record
or its list does not contain the uid; otherwise splices out the uid and
rebuilds the entity's reverse-index row. -/
def unsubscribeGroup (s : Storage) (groupId : String) (uid : Nat) : Bool × Storage :=
  match mget groupId s.groupSubs with
  | none => (false, s)
  | some sub =>
    if uid ∈ sub.streamerUids then
      let sub' := { sub with streamerUids := sub.streamerUids.erase uid }
      let s₁ := { s with groupSubs := mset groupId sub' s.groupSubs }
      (true, updateStreamerIndex s₁ uid)
    else
      (false, s)

/-- `subscribeUser(userId, uid)`. -/
def subscribeUser (s : Storage) (userId : String) (uid : Nat) :
    Except String (Bool × Storage) :=
  if (mget uid s.streamers).isSome then
    let (sub, s₁) := getOrCreateUserSub s userId
    if uid ∈ sub.streamerUids then
      .ok (false, s₁)
    else
      let sub' := { sub with streamerUids := sub.streamerUids ++ [uid] }
      let s₂ := { s₁ with userSubs := mset userId sub' s₁.userSubs }
      .ok (true, updateStreamerIndex s₂ uid)
  else
    .error (entityNotFoundMsg uid)

/-- `unsubscribeUser(userId, uid)`. -/
def unsubscribeUser (s : Storage) (userId : String) (uid : Nat) : Bool × Storage :=
  match mget userId s.userSubs with
  | none => (false, s)
  | some sub =>
    if uid ∈ sub.streamerUids then
      let sub' := { sub with streamerUids := sub.streamerUids.erase uid }
      let s₁ := { s with userSubs := mset userId sub' s.userSubs }
      (true, updateStreamerIndex s₁ uid)
    else
      (false, s)

/-- `removeStreamer(uid)`: false when the entity is unknown; otherwise
splices the uid out of every group and user subscription, deletes the
entity record and deletes both reverse-index rows. -/
def removeStreamer (s : Storage) (uid : Nat) : Bool × Storage :=
  if (mget uid s.streamers).isSome then
    (true,
      { streamers := mdel uid s.streamers
        groupSubs := s.groupSubs.map
          (fun p => (p.1, { p.2 with streamerUids := p.2.streamerUids.erase uid }))
        userSubs := s.userSubs.map
          (fun p => (p.1, { p.2 with streamerUids := p.2.streamerUids.erase uid }))
        index :=
          { streamerToGroups := mdel uid s.index.streamerToGroups
            streamerToUsers := mdel uid s.index.streamerToUsers } })
  else
    (false, s)

-- ==================== Reverse-index consistency ====================

/-- The scan `updateStreamerIndex` performs: the group ids whose stored
`streamerUids` list currently contains `uid`, in map insertion order. -/
def groupsContaining (s : Storage) (uid : Nat) : List String :=
  (s.groupSubs.filter (fun p => decide (uid ∈ p.2.streamerUids))).map (·.1)

/-- The user ids whose stored `streamerUids` list currently contains `uid`. -/
def usersContaining (s : Storage) (uid : Nat) : List String :=
  (s.userSubs.filter (fun p => decide (uid ∈ p.2.streamerUids))).map (·.1)

/-- The reverse-index row `streamerToGroups[uid]`; readers treat an
absent row as the empty list (`?? []`). -/
def indexGroups (s : Storage) (uid : Nat) : List String :=
  (mget uid s.index.streamerToGroups).getD []

/-- The reverse-index row `streamerToUsers[uid]`. -/
def indexUsers (s : Storage) (uid : Nat) : List String :=
  (mget uid s.index.streamerToUsers).getD []

/-- Subscription lists are sets: no `streamerUids` list has a duplicate.
The store only ever appends a uid after an `includes` check, so every
state it builds satisfies this. -/
def NodupSubs (s : Storage) : Prop :=
  (∀ p ∈ s.groupSubs, p.2.streamerUids.Nodup) ∧
  (∀ p ∈ s.userSubs, p.2.streamerUids.Nodup)

/-- Reverse-index rows agree, as sets, with the scan over the stored
subscription lists. -/
def IndexConsistent (s : Storage) : Prop :=
  ∀ uid : Nat,
    (∀ g : String, g ∈ indexGroups s uid ↔ g ∈ groupsContaining s uid) ∧
    (∀ u : String, u ∈ indexUsers s uid ↔ u ∈ usersContaining s uid)

/-- A consistent store: duplicate-free subscription lists and a reverse
index that matches the authoritative subscription records. -/
def Consistent (s : Storage) : Prop :=
  NodupSubs s ∧ IndexConsistent s

/-- One mutating store operation. -/
inductive StoreOp where
  | subGroup (groupId : String) (uid : Nat)
  | unsubGroup (groupId : String) (uid : Nat)
  | subUser (userId : String) (uid : Nat)
  | unsubUser (userId : String) (uid : Nat)
  | removeStr (uid : Nat)
deriving DecidableEq, Repr

/-- Run one operation; a thrown `EntityNotFound` leaves the state as the
code does (the exception propagates before any mutation). -/
def applyOp (s : Storage) : StoreOp → Storage
  | .subGroup g uid =>
    match subscribeGroup s g uid with
    | .ok (_, s') => s'
    | .error _ => s
  | .unsubGroup g uid => (unsubscribeGroup s g uid).2
  | .subUser u uid =>
    match subscribeUser s u uid with
    | .ok (_, s') => s'
    | .error _ => s
  | .unsubUser u uid => (unsubscribeUser s u uid).2
  | .removeStr uid => (removeStreamer s uid).2

def applyOps (s : Storage) (ops : List StoreOp) : Storage :=
  ops.foldl applyOp s

-- ==================== Fan-out queries ====================

/-- `getStreamerSubscribedGroups(uid)`: resolve the reverse-index row. -/
def getStreamerSubscribedGroups (s : Storage) (uid : Nat) : List GroupSubscription :=
  (indexGroups s uid).filterMap (fun id => mget id s.groupSubs)

/-- `getStreamerEnabledGroups(uid)`: only groups with push enabled. -/
def getStreamerEnabledGroups (s : Storage) (uid : Nat) : List GroupSubscription :=
  (getStreamerSubscribedGroups s uid).filter (·.enabled)

/-- `getStreamerSubscribedUsers(uid)`. -/
def getStreamerSubscribedUsers (s : Storage) (uid : Nat) : List UserSubscription :=
  (indexUsers s uid).filterMap (fun id => mget id s.userSubs)

/-- `hasAnySubscribers(uid)`. -/
def hasAnySubscribers (s : Storage) (uid : Nat) : Bool :=
  decide (0 < (indexGroups s uid).length) || decide (0 < (indexUsers s uid).length)

-- ==================== Notification service ====================

/-- One OneBot message segment, as built by the notification service. -/
inductive MessageSegment where
  | atAll
  | text (s : String)
  | image (url : String)
deriving DecidableEq, Repr

/-- `NotificationMessage` of notification-service.ts. -/
structure NotificationMessage where
  text : String
  image : Option String := none
deriving DecidableEq, Repr

/-- `buildMessageSegments(message, atAll)`: at-all marker plus a newline
text segment first when enabled, then the text, then the optional image. -/
def buildMessageSegments (message : NotificationMessage) (atAll : Bool) :
    List MessageSegment :=
  let segments : List MessageSegment := []
  let segments := if atAll
    then segments ++ [MessageSegment.atAll, MessageSegment.text "\n"]
    else segments
  let segments := segments ++ [MessageSegment.text message.text]
  match message.image with
  | some img => segments ++ [MessageSegment.image img]
  | none => segments

inductive RecipientKind where
  | group
  | user
deriving DecidableEq, Repr

/-- One transport call made by `sendToSubscribers`. -/
structure Delivery where
  kind : RecipientKind
  recipientId : String
  segments : List MessageSegment
deriving DecidableEq, Repr

/-- `sendToSubscribers(uid, message)`: one group message per enabled
subscribed group (honouring its `enableAtAll` flag), then one private
message per subscribed user (never mentioning all). -/
def sendToSubscribers (s : Storage) (uid : Nat) (message : NotificationMessage) :
    List Delivery :=
  let groups := getStreamerEnabledGroups s uid
  let users := getStreamerSubscribedUsers s uid
  if groups.isEmpty && users.isEmpty then []
  else
    groups.map (fun g =>
      { kind := .group, recipientId := g.groupId
        segments := buildMessageSegments message g.enableAtAll }) ++
    (let userMessageSegments := buildMessageSegments message false
     users.map (fun u =>
       { kind := .user, recipientId := u.userId, segments := userMessageSegments }))

-- ==================== Live monitor (live-monitor-service.ts) ====================

/-- `StreamerLiveCache` entry. -/
structure StreamerLiveCache where
  lastLiveStatus : Nat
  lastLiveTime : Nat
deriving DecidableEq, Repr

/-- `LiveRoomStatus` as returned by the batch status fetch. -/
structure LiveRoomStatus where
  roomId : Nat
  uid : Nat
  title : String
  liveStatus : Nat
  online : Nat
  liveTime : Nat
  uname : String
  face : String
  cover : String
deriving DecidableEq, Repr

/-- Transition classification of one poll observation: `started` and
`ended` trigger a notification, `unchanged` triggers none. -/
inductive LiveEvent where
  | started
  | ended
  | unchanged
deriving DecidableEq, Repr

/-- `processStreamerStatus(streamer, status)`: a missing cache entry
defaults to `lastLiveStatus = 0`; started when not previously live and
now live, ended when previously live and now not; the cache entry is
then updated to the observed status. -/
def processStreamerStatus (liveCache : List (Nat × StreamerLiveCache))
    (streamer : Streamer) (status : LiveRoomStatus) :
    LiveEvent × List (Nat × StreamerLiveCache) × Streamer :=
  let cache := (mget streamer.uid liveCache).getD { lastLiveStatus := 0, lastLiveTime := 0 }
  let oldStatus := cache.lastLiveStatus
  let currentStatus := status.liveStatus
  let streamer' := { streamer with
    liveStatus := currentStatus
    liveTime := status.liveTime
    title := some status.title
    cover := some status.cover
    face := some status.face
    uname := status.uname }
  let wasLive := decide (oldStatus = 1)
  let isLive := decide (currentStatus = 1)
  let (event, cache) :=
    if !wasLive && isLive then
      (LiveEvent.started, { cache with lastLiveTime := status.liveTime })
    else if wasLive && !isLive then
      (LiveEvent.ended, cache)
    else
      (LiveEvent.unchanged, cache)
  let cache := { cache with lastLiveStatus := currentStatus }
  (event, mset streamer.uid cache liveCache, streamer')

/-- Feed one list of observations through `processStreamerStatus`,
collecting the classification of each poll. -/
def runObservations (liveCache : List (Nat × StreamerLiveCache)) (streamer : Streamer) :
    List LiveRoomStatus → List LiveEvent
  | [] => []
  | status :: rest =>
    let (event, liveCache', streamer') := processStreamerStatus liveCache streamer status
    event :: runObservations liveCache' streamer' rest

/-- The entity list one poll cycle iterates: all stored streamers that
have at least one subscriber. -/
def subscribedStreamers (store : Storage) : List Streamer :=
  (store.streamers.map (·.2)).filter (fun st => hasAnySubscribers store st.uid)

/-- The per-entity loop of `checkAllStreamers` (live monitor): entities
missing from the batch status map are skipped, the rest are processed in
order, threading the live cache. -/
def processStatusList (statusMap : List (Nat × LiveRoomStatus)) :
    List Streamer → List (Nat × StreamerLiveCache) →
    List (Nat × LiveEvent) × List (Nat × StreamerLiveCache)
  | [], liveCache => ([], liveCache)
  | streamer :: rest, liveCache =>
    match mget streamer.uid statusMap with
    | none => processStatusList statusMap rest liveCache
    | some status =>
      let (event, liveCache', _) := processStreamerStatus liveCache streamer status
      let (events, liveCache'') := processStatusList statusMap rest liveCache'
      ((streamer.uid, event) :: events, liveCache'')

/-- `checkAllStreamers` of the live monitor: filter to subscribed
streamers, batch-fetch (modelled as the resulting partial status map:
the fetcher catches every error and returns the entries it obtained),
then process each streamer that has a status. -/
def checkAllStreamersLive (store : Storage) (liveCache : List (Nat × StreamerLiveCache))
    (statusMap : List (Nat × LiveRoomStatus)) :
    List (Nat × LiveEvent) × List (Nat × StreamerLiveCache) :=
  processStatusList statusMap (subscribedStreamers store) liveCache

-- ==================== Dynamic monitor (dynamic-monitor-service.ts) ====================

/-- `DynamicType` of types.ts. -/
inductive DynamicType where
  | forward
  | av
  | draw
  | word
  | article
  | music
  | live
deriving DecidableEq, Repr

/-- The fields of `DynamicInfo` the monitor's selection logic reads. -/
structure DynamicInfo where
  id : String
  dtype : DynamicType
  pubTs : Nat
  text : String
deriving DecidableEq, Repr

/-- `SKIP_DYNAMIC_TYPES`: live dynamics are never pushed. -/
def SKIP_DYNAMIC_TYPES : List DynamicType := [DynamicType.live]

/-- `DynamicCache` entry: the watermark, in milliseconds. -/
structure DynamicCache where
  lastCheckTime : Nat
deriving DecidableEq, Repr

/-- `findNewDynamicsByTime(dynamics, lastCheckTime)`: `pub_ts` is in
seconds, the watermark in milliseconds. -/
def findNewDynamicsByTime (dynamics : List DynamicInfo) (lastCheckTime : Nat) :
    List DynamicInfo :=
  dynamics.filter (fun dynamic => decide (dynamic.pubTs * 1000 > lastCheckTime))

/-- `checkStreamerDynamic(uid)` for one entity: early return when the
streamer record is missing or the fetched list is empty; a missing cache
entry is seeded silently; otherwise the new dynamics are selected by
time, live-type ones dropped, the rest notified oldest-first (the index
runs from the end of the fetched newest-first list), and the watermark
set to the poll time `now`.  Returns the notified dynamics in send order
and the new cache. -/
def checkStreamerDynamic (dynamicCache : List (Nat × DynamicCache)) (uid : Nat)
    (streamerFound : Bool) (dynamics : List DynamicInfo) (now : Nat) :
    List DynamicInfo × List (Nat × DynamicCache) :=
  if !streamerFound then ([], dynamicCache)
  else if dynamics.isEmpty then ([], dynamicCache)
  else
    match mget uid dynamicCache with
    | none => ([], mset uid { lastCheckTime := now } dynamicCache)
    | some cache =>
      let newDynamics := findNewDynamicsByTime dynamics cache.lastCheckTime
      let filteredDynamics :=
        newDynamics.filter (fun dynamic => decide (dynamic.dtype ∉ SKIP_DYNAMIC_TYPES))
      (filteredDynamics.reverse, mset uid { lastCheckTime := now } dynamicCache)

/-- The per-entity loop of `checkAllStreamers` (dynamic monitor): every
subscribed streamer is checked in order; a per-entity fetch failure is
surfaced by `getUserDynamics` as an empty list (it catches and logs every
error internally). -/
def processDynamicList (store : Storage) (fetch : Nat → List DynamicInfo) (now : Nat) :
    List Streamer → List (Nat × DynamicCache) →
    List (Nat × List DynamicInfo) × List (Nat × DynamicCache)
  | [], dynamicCache => ([], dynamicCache)
  | streamer :: rest, dynamicCache =>
    let (sent, dynamicCache') := checkStreamerDynamic dynamicCache streamer.uid
      (mget streamer.uid store.streamers).isSome (fetch streamer.uid) now
    let (results, dynamicCache'') := processDynamicList store fetch now rest dynamicCache'
    ((streamer.uid, sent) :: results, dynamicCache'')

/-- `checkAllStreamers` of the dynamic monitor. -/
def checkAllStreamersDynamic (store : Storage) (dynamicCache : List (Nat × DynamicCache))
    (fetch : Nat → List DynamicInfo) (now : Nat) :
    List (Nat × List DynamicInfo) × List (Nat × DynamicCache) :=
  processDynamicList store fetch now (subscribedStreamers store) dynamicCache

-- ==================== Demo inputs for witnesses ====================

def demoStreamer : Streamer :=
  { uid := 42, roomId := 7, uname := "demo", liveStatus := 0, liveTime := 0 }

def demoLive : LiveRoomStatus :=
  { roomId := 7, uid := 42, title := "t", liveStatus := 1, online := 3, liveTime := 500,
    uname := "demo", face := "f", cover := "c" }

-- ==================== Derived views of one subscriber ====================

/-- The entity list stored for one group (empty when no record). -/
def groupUids (s : Storage) (g : String) : List Nat :=
  ((mget g s.groupSubs).map GroupSubscription.streamerUids).getD []

/-- The entity list stored for one user (empty when no record). -/
def userUids (s : Storage) (u : String) : List Nat :=
  ((mget u s.userSubs).map UserSubscription.streamerUids).getD []

/-- The group record after `subscribeGroup` succeeds: the existing
record with the uid appended, or a fresh default record holding it. -/
def newGroupSub (s : Storage) (g : String) (uid : Nat) : GroupSubscription :=
  match mget g s.groupSubs with
  | some sub => { sub with streamerUids := sub.streamerUids ++ [uid] }
  | none => { groupId := g, streamerUids := [uid], enableAtAll := false, enabled := true }

/-- The store after a successful `subscribeGroup`. -/
def afterSubGroup (s : Storage) (g : String) (uid : Nat) : Storage :=
  updateStreamerIndex { s with groupSubs := mset g (newGroupSub s g uid) s.groupSubs } uid

/-- The user record after `subscribeUser` succeeds. -/
def newUserSub (s : Storage) (u : String) (uid : Nat) : UserSubscription :=
  match mget u s.userSubs with
  | some sub => { sub with streamerUids := sub.streamerUids ++ [uid] }
  | none => { userId := u, streamerUids := [uid] }

/-- The store after a successful `subscribeUser`. -/
def afterSubUser (s : Storage) (u : String) (uid : Nat) : Storage :=
  updateStreamerIndex { s with userSubs := mset u (newUserSub s u uid) s.userSubs } uid

/-- The store after a successful `unsubscribeGroup`. -/
def afterUnsubGroup (s : Storage) (g : String) (uid : Nat) : Storage :=
  match mget g s.groupSubs with
  | none => s
  | some sub =>
    let sub' := { sub with streamerUids := sub.streamerUids.erase uid }
    updateStreamerIndex { s with groupSubs := mset g sub' s.groupSubs } uid

/-- The store after a successful `unsubscribeUser`. -/
def afterUnsubUser (s : Storage) (u : String) (uid : Nat) : Storage :=
  match mget u s.userSubs with
  | none => s
  | some sub =>
    let sub' := { sub with streamerUids := sub.streamerUids.erase uid }
    updateStreamerIndex { s with userSubs := mset u sub' s.userSubs } uid

/-- A store where entity 5 is subscribed by group g1 and user u1. -/
def removalDemoStore : Storage :=
  { streamers := [(5, { demoStreamer with uid := 5 })]
    groupSubs := [("g1",
      { groupId := "g1", streamerUids := [5], enableAtAll := false, enabled := true })]
    userSubs := [("u1", { userId := "u1", streamerUids := [5] })]
    index := { streamerToGroups := [(5, ["g1"])], streamerToUsers := [(5, ["u1"])] } }

/-- A store for the notification witness: entity 5 subscribed by an
at-all group, a plain group, a disabled group and one user. -/
def notifyDemoStore : Storage :=
  { streamers := [(5, { demoStreamer with uid := 5 })]
    groupSubs :=
      [("gAt", { groupId := "gAt", streamerUids := [5], enableAtAll := true, enabled := true }),
       ("gNo", { groupId := "gNo", streamerUids := [5], enableAtAll := false, enabled := true }),
       ("gOff", { groupId := "gOff", streamerUids := [5], enableAtAll := true, enabled := false })]
    userSubs := [("u1", { userId := "u1", streamerUids := [5] })]
    index := { streamerToGroups := [(5, ["gAt", "gNo", "gOff"])]
               streamerToUsers := [(5, ["u1"])] } }

/-- A store with two subscribed entities (5 and 6), for the fail-soft
poll-cycle witness. -/
def failSoftDemoStore : Storage :=
  { streamers := [(5, { demoStreamer with uid := 5 }), (6, { demoStreamer with uid := 6 })]
    groupSubs := [("g1",
      { groupId := "g1", streamerUids := [5, 6], enableAtAll := false, enabled := true })]
    userSubs := []
    index := { streamerToGroups := [(5, ["g1"]), (6, ["g1"])], streamerToUsers := [] } }

/-- A group record with one uid spliced out. -/
def eraseUidG (sub : GroupSubscription) (uid : Nat) : GroupSubscription :=
  { sub with streamerUids := sub.streamerUids.erase uid }

/-- A user record with one uid spliced out. -/
def eraseUidU (sub : UserSubscription) (uid : Nat) : UserSubscription :=
  { sub with streamerUids := sub.streamerUids.erase uid }

/-- Initial store for the reverse-index witness: two entities, no
subscriptions yet (trivially consistent). -/
def indexDemoStore : Storage :=
  { streamers := [(5, { demoStreamer with uid := 5 }), (6, { demoStreamer with uid := 6 })]
    groupSubs := []
    userSubs := []
    index := { streamerToGroups := [], streamerToUsers := [] } }

/-- Operation sequence for the reverse-index witness. -/
def indexDemoOps : List StoreOp :=
  [StoreOp.subGroup "g1" 5, StoreOp.subGroup "g2" 5, StoreOp.subUser "u1" 5,
   StoreOp.subGroup "g1" 5, StoreOp.subGroup "g1" 99, StoreOp.subGroup "g2" 6,
   StoreOp.unsubGroup "g2" 5, StoreOp.removeStr 6]

-- ==================== Claims ====================

/-- C3: with an existing cache entry, `processStreamerStatus` classifies
started iff the previous status was not LIVE (1) and the new one is,
ended iff the previous status was LIVE and the new one is not, and
unchanged otherwise; and from a cached OFFLINE status the poll sequence
LIVE, LIVE, OFFLINE yields exactly started, unchanged, ended. -/
theorem classify_transitions (liveCache : List (Nat × StreamerLiveCache))
    (streamer : Streamer) (status : LiveRoomStatus) (c : StreamerLiveCache)
    (h : mget streamer.uid liveCache = some c) :
    ((processStreamerStatus liveCache streamer status).1 = LiveEvent.started ↔
       (c.lastLiveStatus ≠ 1 ∧ status.liveStatus = 1)) ∧
    ((processStreamerStatus liveCache streamer status).1 = LiveEvent.ended ↔
       (c.lastLiveStatus = 1 ∧ status.liveStatus ≠ 1)) ∧
    ((processStreamerStatus liveCache streamer status).1 = LiveEvent.unchanged ↔
       (c.lastLiveStatus = 1 ↔ status.liveStatus = 1)) ∧
    (∀ s₁ s₂ s₃ : LiveRoomStatus, c.lastLiveStatus = 0 →
       s₁.liveStatus = 1 → s₂.liveStatus = 1 → s₃.liveStatus = 0 →
       runObservations liveCache streamer [s₁, s₂, s₃] =
         [LiveEvent.started, LiveEvent.unchanged, LiveEvent.ended]) := by
  refine ⟨?_, ?_, ?_, ?_⟩
  · by_cases h₁ : c.lastLiveStatus = 1 <;> by_cases h₂ : status.liveStatus = 1 <;>
      simp [processStreamerStatus, h, h₁, h₂]
  · by_cases h₁ : c.lastLiveStatus = 1 <;> by_cases h₂ : status.liveStatus = 1 <;>
      simp [processStreamerStatus, h, h₁, h₂]
  · by_cases h₁ : c.lastLiveStatus = 1 <;> by_cases h₂ : status.liveStatus = 1 <;>
      simp [processStreamerStatus, h, h₁, h₂]
  · intro s₁ s₂ s₃ h₀ e₁ e₂ e₃
    simp [runObservations, processStreamerStatus, h, h₀, e₁, e₂, e₃, mget_mset_self]

/-- C3 witness: concrete instance of the classification rules. -/
theorem classify_transitions_witness :
    ((processStreamerStatus [(42, ⟨0, 0⟩)] demoStreamer demoLive).1 = LiveEvent.started ↔
       ((0 : Nat) ≠ 1 ∧ demoLive.liveStatus = 1)) ∧
    runObservations [(42, ⟨0, 0⟩)] demoStreamer
        [demoLive, demoLive, { demoLive with liveStatus := 0 }] =
      [LiveEvent.started, LiveEvent.unchanged, LiveEvent.ended] := by
  have h := classify_transitions [(42, ⟨0, 0⟩)] demoStreamer demoLive ⟨0, 0⟩ (by rfl)
  exact ⟨h.1, h.2.2.2 demoLive demoLive { demoLive with liveStatus := 0 }
    rfl rfl rfl rfl⟩

/-- C2 counterexample: an entity with no cache entry (previously unseen)
whose first observed status is LIVE does produce a start event in the
live monitor — the absent entry defaults to `lastLiveStatus = 0`, it is
not seeded silently. -/
theorem first_live_observation_counterexample :
    (processStreamerStatus [] demoStreamer demoLive).1 = LiveEvent.started ∧
    LiveEvent.started ≠ LiveEvent.unchanged := by
  constructor
  · rfl
  · decide

/-- C2 amended: the dynamic monitor seeds a previously-unseen entity
silently (no items pushed, watermark initialised), but the live monitor
treats an absent cache entry as previous status OFFLINE, so the first
observation yields a start event exactly when the first observed status
is LIVE and no event otherwise. -/
theorem first_observation_seeding (liveCache : List (Nat × StreamerLiveCache))
    (streamer : Streamer) (status : LiveRoomStatus)
    (dynamicCache : List (Nat × DynamicCache)) (uid : Nat)
    (dynamics : List DynamicInfo) (now : Nat) :
    (mget streamer.uid liveCache = none →
      (processStreamerStatus liveCache streamer status).1 =
        (if status.liveStatus = 1 then LiveEvent.started else LiveEvent.unchanged)) ∧
    (mget uid dynamicCache = none → dynamics ≠ [] →
      checkStreamerDynamic dynamicCache uid true dynamics now =
        ([], mset uid { lastCheckTime := now } dynamicCache)) := by
  constructor
  · intro h
    by_cases h₂ : status.liveStatus = 1 <;> simp [processStreamerStatus, h, h₂]
  · intro h hne
    simp [checkStreamerDynamic, h, hne]

/-- C2 amended witness. -/
theorem first_observation_seeding_witness :
    (processStreamerStatus [] demoStreamer demoLive).1 =
      (if demoLive.liveStatus = 1 then LiveEvent.started else LiveEvent.unchanged) ∧
    checkStreamerDynamic [] 42 true [⟨"d1", DynamicType.word, 1, "a"⟩] 100 =
      ([], mset 42 { lastCheckTime := 100 } []) := by
  have h := first_observation_seeding [] demoStreamer demoLive [] 42
    [⟨"d1", DynamicType.word, 1, "a"⟩] 100
  exact ⟨h.1 rfl, h.2 rfl (by decide)⟩

theorem map_fst_mset_of_mget {K V : Type} [DecidableEq K] {k : K} {v : V}
    {l : List (K × V)} (h : mget k l = some v) (v' : V) :
    (mset k v' l).map Prod.fst = l.map Prod.fst := by
  induction l with
  | nil => simp [mget] at h
  | cons p rest ih =>
    obtain ⟨k₀, v₀⟩ := p
    by_cases h₀ : k₀ = k
    · simp [mset, h₀]
    · simp only [mget, if_neg h₀] at h
      simp [mset, h₀, ih h]

/-- C6: subscribing a group or user to an entity with no streamer record
throws the entity-not-found error; against an existing entity both
subscribe operations never throw and return a boolean. -/
theorem subscribe_entity_not_found (s : Storage) (g u : String) (uid : Nat) :
    (mget uid s.streamers = none →
      subscribeGroup s g uid = .error (entityNotFoundMsg uid) ∧
      subscribeUser s u uid = .error (entityNotFoundMsg uid)) ∧
    ((mget uid s.streamers).isSome →
      (∃ b s', subscribeGroup s g uid = .ok (b, s')) ∧
      (∃ b s', subscribeUser s u uid = .ok (b, s'))) := by
  constructor
  · intro h
    constructor <;> simp [subscribeGroup, subscribeUser, h]
  · intro h
    constructor
    · rcases hgc : getOrCreateGroupSub s g with ⟨sub, s₁⟩
      rcases he : subscribeGroup s g uid with msg | p
      · exfalso
        by_cases hm : uid ∈ sub.streamerUids <;>
          simp [subscribeGroup, h, hgc, hm] at he
      · exact ⟨p.1, p.2, rfl⟩
    · rcases hgc : getOrCreateUserSub s u with ⟨sub, s₁⟩
      rcases he : subscribeUser s u uid with msg | p
      · exfalso
        by_cases hm : uid ∈ sub.streamerUids <;>
          simp [subscribeUser, h, hgc, hm] at he
      · exact ⟨p.1, p.2, rfl⟩

/-- C6 witness: entity 5 unknown in the empty store, known after it is
added; subscribe throws in the first store and returns a boolean in the
second. -/
theorem subscribe_entity_not_found_witness :
    subscribeGroup emptyStorage "g1" 5 = .error (entityNotFoundMsg 5) ∧
    (∃ b s', subscribeGroup
        { emptyStorage with streamers := [(5, { demoStreamer with uid := 5 })] }
        "g1" 5 = .ok (b, s')) := by
  refine ⟨((subscribe_entity_not_found emptyStorage "g1" "u1" 5).1 rfl).1, ?_⟩
  exact ((subscribe_entity_not_found
    { emptyStorage with streamers := [(5, { demoStreamer with uid := 5 })] }
    "g1" "u1" 5).2 (by rfl)).1

/-- C10: an unsubscribe call that returns false (no record for the
subscriber, or its list does not contain the entity) leaves the whole
store unchanged, and an unsubscribe call never creates a group or user
subscription record (the key sets of both tables are preserved by every
unsubscribe call). -/
theorem unsubscribe_false_no_change (s : Storage) (g u : String) (uid : Nat) :
    ((unsubscribeGroup s g uid).1 = false → (unsubscribeGroup s g uid).2 = s) ∧
    ((unsubscribeUser s u uid).1 = false → (unsubscribeUser s u uid).2 = s) ∧
    (unsubscribeGroup s g uid).2.groupSubs.map Prod.fst = s.groupSubs.map Prod.fst ∧
    (unsubscribeGroup s g uid).2.userSubs.map Prod.fst = s.userSubs.map Prod.fst ∧
    (unsubscribeUser s u uid).2.userSubs.map Prod.fst = s.userSubs.map Prod.fst ∧
    (unsubscribeUser s u uid).2.groupSubs.map Prod.fst = s.groupSubs.map Prod.fst := by
  refine ⟨?_, ?_, ?_, ?_, ?_, ?_⟩
  · rcases hg : mget g s.groupSubs with _ | sub
    · intro _; simp [unsubscribeGroup, hg]
    · by_cases hm : uid ∈ sub.streamerUids <;> simp [unsubscribeGroup, hg, hm]
  · rcases hu : mget u s.userSubs with _ | sub
    · intro _; simp [unsubscribeUser, hu]
    · by_cases hm : uid ∈ sub.streamerUids <;> simp [unsubscribeUser, hu, hm]
  · rcases hg : mget g s.groupSubs with _ | sub
    · simp [unsubscribeGroup, hg]
    · by_cases hm : uid ∈ sub.streamerUids <;>
        simp [unsubscribeGroup, hg, hm, updateStreamerIndex, map_fst_mset_of_mget hg]
  · rcases hg : mget g s.groupSubs with _ | sub
    · simp [unsubscribeGroup, hg]
    · by_cases hm : uid ∈ sub.streamerUids <;>
        simp [unsubscribeGroup, hg, hm, updateStreamerIndex]
  · rcases hu : mget u s.userSubs with _ | sub
    · simp [unsubscribeUser, hu]
    · by_cases hm : uid ∈ sub.streamerUids <;>
        simp [unsubscribeUser, hu, hm, updateStreamerIndex, map_fst_mset_of_mget hu]
  · rcases hu : mget u s.userSubs with _ | sub
    · simp [unsubscribeUser, hu]
    · by_cases hm : uid ∈ sub.streamerUids <;>
        simp [unsubscribeUser, hu, hm, updateStreamerIndex]

/-- C10 witness: unsubscribing from the empty store returns false and
changes nothing. -/
theorem unsubscribe_false_no_change_witness :
    (unsubscribeGroup emptyStorage "g1" 5).2 = emptyStorage ∧
    (unsubscribeUser emptyStorage "u1" 5).2 = emptyStorage := by
  have h := unsubscribe_false_no_change emptyStorage "g1" "u1" 5
  exact ⟨h.1 (by rfl), h.2.1 (by rfl)⟩

/-- C5: removing an entity that exists returns true and afterwards the
entity is absent from the streamer table, from every group's and user's
`streamerUids` list and from both reverse-index rows; removing an
unknown entity returns false and changes nothing.  Subscription lists
are duplicate-free, as the store maintains them. -/
theorem removeStreamer_cleanup (s : Storage) (uid : Nat) (hnd : NodupSubs s) :
    ((mget uid s.streamers).isSome →
      (removeStreamer s uid).1 = true ∧
      mget uid (removeStreamer s uid).2.streamers = none ∧
      (∀ p ∈ (removeStreamer s uid).2.groupSubs, uid ∉ p.2.streamerUids) ∧
      (∀ p ∈ (removeStreamer s uid).2.userSubs, uid ∉ p.2.streamerUids) ∧
      mget uid (removeStreamer s uid).2.index.streamerToGroups = none ∧
      mget uid (removeStreamer s uid).2.index.streamerToUsers = none) ∧
    (mget uid s.streamers = none → removeStreamer s uid = (false, s)) := by
  constructor
  · intro h
    refine ⟨by simp [removeStreamer, h], by simp [removeStreamer, h, mget_mdel_self],
      ?_, ?_, by simp [removeStreamer, h, mget_mdel_self],
      by simp [removeStreamer, h, mget_mdel_self]⟩
    · intro p hp
      simp only [removeStreamer, h, if_pos, List.mem_map] at hp
      obtain ⟨q, hq, hqp⟩ := hp
      subst hqp
      exact (hnd.1 q hq).not_mem_erase
    · intro p hp
      simp only [removeStreamer, h, if_pos, List.mem_map] at hp
      obtain ⟨q, hq, hqp⟩ := hp
      subst hqp
      exact (hnd.2 q hq).not_mem_erase
  · intro h
    simp [removeStreamer, h]

/-- C5 witness: a store where entity 5 is subscribed by a group and a
user; after removal everything about entity 5 is gone, and removing the
unknown entity 6 from the empty store changes nothing. -/
theorem removeStreamer_cleanup_witness :
    (removeStreamer removalDemoStore 5).1 = true ∧
    mget 5 (removeStreamer removalDemoStore 5).2.streamers = none ∧
    (∀ p ∈ (removeStreamer removalDemoStore 5).2.groupSubs, 5 ∉ p.2.streamerUids) ∧
    (∀ p ∈ (removeStreamer removalDemoStore 5).2.userSubs, 5 ∉ p.2.streamerUids) ∧
    mget 5 (removeStreamer removalDemoStore 5).2.index.streamerToGroups = none ∧
    mget 5 (removeStreamer removalDemoStore 5).2.index.streamerToUsers = none ∧
    removeStreamer emptyStorage 6 = (false, emptyStorage) := by
  have h₁ := (removeStreamer_cleanup removalDemoStore 5 (by
    constructor <;> intro p hp <;> fin_cases hp <;> decide)).1 (by rfl)
  have h₂ := (removeStreamer_cleanup emptyStorage 6 (by
    constructor <;> intro p hp <;> simp [emptyStorage] at hp)).2 rfl
  exact ⟨h₁.1, h₁.2.1, h₁.2.2.1, h₁.2.2.2.1, h₁.2.2.2.2.1, h₁.2.2.2.2.2, h₂⟩

theorem mset_mset {K V : Type} [DecidableEq K] (k : K) (v v' : V) (l : List (K × V)) :
    mset k v' (mset k v l) = mset k v' l := by
  induction l with
  | nil => simp [mset]
  | cons p rest ih =>
    obtain ⟨k₀, v₀⟩ := p
    by_cases h₀ : k₀ = k <;> simp [mset, h₀, ih]

theorem subscribeGroup_success (s : Storage) (g : String) (uid : Nat)
    (hs : (mget uid s.streamers).isSome) (hn : uid ∉ groupUids s g) :
    subscribeGroup s g uid = .ok (true, afterSubGroup s g uid) := by
  rcases hg : mget g s.groupSubs with _ | sub
  · simp [subscribeGroup, getOrCreateGroupSub, hs, hg, afterSubGroup, newGroupSub, mset_mset]
  · have hm : uid ∉ sub.streamerUids := by simpa [groupUids, hg] using hn
    simp [subscribeGroup, getOrCreateGroupSub, hs, hg, afterSubGroup, newGroupSub, hm]

theorem subscribeGroup_already (s : Storage) (g : String) (uid : Nat)
    (hs : (mget uid s.streamers).isSome) (hm : uid ∈ groupUids s g) :
    subscribeGroup s g uid = .ok (false, s) := by
  rcases hg : mget g s.groupSubs with _ | sub
  · simp [groupUids, hg] at hm
  · have hm' : uid ∈ sub.streamerUids := by simpa [groupUids, hg] using hm
    simp [subscribeGroup, getOrCreateGroupSub, hs, hg, hm']

theorem unsubscribeGroup_mem (s : Storage) (g : String) (uid : Nat)
    (hm : uid ∈ groupUids s g) :
    unsubscribeGroup s g uid = (true, afterUnsubGroup s g uid) := by
  rcases hg : mget g s.groupSubs with _ | sub
  · simp [groupUids, hg] at hm
  · have hm' : uid ∈ sub.streamerUids := by simpa [groupUids, hg] using hm
    simp [unsubscribeGroup, afterUnsubGroup, hg, hm']

theorem unsubscribeGroup_not_mem (s : Storage) (g : String) (uid : Nat)
    (hm : uid ∉ groupUids s g) :
    unsubscribeGroup s g uid = (false, s) := by
  rcases hg : mget g s.groupSubs with _ | sub
  · simp [unsubscribeGroup, hg]
  · have hm' : uid ∉ sub.streamerUids := by simpa [groupUids, hg] using hm
    simp [unsubscribeGroup, hg, hm']

theorem subscribeUser_success (s : Storage) (u : String) (uid : Nat)
    (hs : (mget uid s.streamers).isSome) (hn : uid ∉ userUids s u) :
    subscribeUser s u uid = .ok (true, afterSubUser s u uid) := by
  rcases hu : mget u s.userSubs with _ | sub
  · simp [subscribeUser, getOrCreateUserSub, hs, hu, afterSubUser, newUserSub, mset_mset]
  · have hm : uid ∉ sub.streamerUids := by simpa [userUids, hu] using hn
    simp [subscribeUser, getOrCreateUserSub, hs, hu, afterSubUser, newUserSub, hm]

theorem subscribeUser_already (s : Storage) (u : String) (uid : Nat)
    (hs : (mget uid s.streamers).isSome) (hm : uid ∈ userUids s u) :
    subscribeUser s u uid = .ok (false, s) := by
  rcases hu : mget u s.userSubs with _ | sub
  · simp [userUids, hu] at hm
  · have hm' : uid ∈ sub.streamerUids := by simpa [userUids, hu] using hm
    simp [subscribeUser, getOrCreateUserSub, hs, hu, hm']

theorem unsubscribeUser_mem (s : Storage) (u : String) (uid : Nat)
    (hm : uid ∈ userUids s u) :
    unsubscribeUser s u uid = (true, afterUnsubUser s u uid) := by
  rcases hu : mget u s.userSubs with _ | sub
  · simp [userUids, hu] at hm
  · have hm' : uid ∈ sub.streamerUids := by simpa [userUids, hu] using hm
    simp [unsubscribeUser, afterUnsubUser, hu, hm']

theorem unsubscribeUser_not_mem (s : Storage) (u : String) (uid : Nat)
    (hm : uid ∉ userUids s u) :
    unsubscribeUser s u uid = (false, s) := by
  rcases hu : mget u s.userSubs with _ | sub
  · simp [unsubscribeUser, hu]
  · have hm' : uid ∉ sub.streamerUids := by simpa [userUids, hu] using hm
    simp [unsubscribeUser, hu, hm']

theorem groupUids_afterSubGroup (s : Storage) (g : String) (uid : Nat) :
    groupUids (afterSubGroup s g uid) g = groupUids s g ++ [uid] := by
  rcases hg : mget g s.groupSubs with _ | sub <;>
    simp [afterSubGroup, groupUids, updateStreamerIndex, newGroupSub, hg, mget_mset_self]

theorem userUids_afterSubUser (s : Storage) (u : String) (uid : Nat) :
    userUids (afterSubUser s u uid) u = userUids s u ++ [uid] := by
  rcases hu : mget u s.userSubs with _ | sub <;>
    simp [afterSubUser, userUids, updateStreamerIndex, newUserSub, hu, mget_mset_self]

theorem groupUids_afterUnsubGroup (s : Storage) (g : String) (uid : Nat) :
    groupUids (afterUnsubGroup s g uid) g = (groupUids s g).erase uid := by
  rcases hg : mget g s.groupSubs with _ | sub <;>
    simp [afterUnsubGroup, groupUids, updateStreamerIndex, hg, mget_mset_self]

theorem userUids_afterUnsubUser (s : Storage) (u : String) (uid : Nat) :
    userUids (afterUnsubUser s u uid) u = (userUids s u).erase uid := by
  rcases hu : mget u s.userSubs with _ | sub <;>
    simp [afterUnsubUser, userUids, updateStreamerIndex, hu, mget_mset_self]

theorem streamers_afterSubGroup (s : Storage) (g : String) (uid : Nat) :
    (afterSubGroup s g uid).streamers = s.streamers := rfl

theorem streamers_afterSubUser (s : Storage) (u : String) (uid : Nat) :
    (afterSubUser s u uid).streamers = s.streamers := rfl

/-- C4: from a state where the subscriber does not yet hold the entity,
subscribing twice returns true then false; once a subscription exists,
unsubscribing twice returns true then false; each second call leaves
the store exactly as it was, and after subscribing the pair occurs
exactly once in the subscriber's list.  Both namespaces (group and
user) behave identically. -/
theorem subscribe_unsubscribe_twice (s : Storage) (g u : String) (uid : Nat)
    (hs : (mget uid s.streamers).isSome) :
    (uid ∉ groupUids s g →
      ∃ s₁, subscribeGroup s g uid = .ok (true, s₁) ∧
            subscribeGroup s₁ g uid = .ok (false, s₁) ∧
            (groupUids s₁ g).count uid = 1) ∧
    (uid ∈ groupUids s g → (groupUids s g).Nodup →
      ∃ s₂, unsubscribeGroup s g uid = (true, s₂) ∧
            unsubscribeGroup s₂ g uid = (false, s₂)) ∧
    (uid ∉ userUids s u →
      ∃ s₁, subscribeUser s u uid = .ok (true, s₁) ∧
            subscribeUser s₁ u uid = .ok (false, s₁) ∧
            (userUids s₁ u).count uid = 1) ∧
    (uid ∈ userUids s u → (userUids s u).Nodup →
      ∃ s₂, unsubscribeUser s u uid = (true, s₂) ∧
            unsubscribeUser s₂ u uid = (false, s₂)) := by
  refine ⟨?_, ?_, ?_, ?_⟩
  · intro hn
    refine ⟨afterSubGroup s g uid, subscribeGroup_success s g uid hs hn, ?_, ?_⟩
    · exact subscribeGroup_already _ g uid (by rw [streamers_afterSubGroup]; exact hs)
        (by rw [groupUids_afterSubGroup]; simp)
    · rw [groupUids_afterSubGroup]
      simp [List.count_eq_zero.mpr hn]
  · intro hm hnd
    refine ⟨afterUnsubGroup s g uid, unsubscribeGroup_mem s g uid hm, ?_⟩
    exact unsubscribeGroup_not_mem _ g uid
      (by rw [groupUids_afterUnsubGroup]; exact hnd.not_mem_erase)
  · intro hn
    refine ⟨afterSubUser s u uid, subscribeUser_success s u uid hs hn, ?_, ?_⟩
    · exact subscribeUser_already _ u uid (by rw [streamers_afterSubUser]; exact hs)
        (by rw [userUids_afterSubUser]; simp)
    · rw [userUids_afterSubUser]
      simp [List.count_eq_zero.mpr hn]
  · intro hm hnd
    refine ⟨afterUnsubUser s u uid, unsubscribeUser_mem s u uid hm, ?_⟩
    exact unsubscribeUser_not_mem _ u uid
      (by rw [userUids_afterUnsubUser]; exact hnd.not_mem_erase)

/-- C4 witness: concrete double-subscribe and double-unsubscribe for
group g1 and user u1 against entity 5. -/
theorem subscribe_unsubscribe_twice_witness :
    (∃ s₁, subscribeGroup { emptyStorage with
        streamers := [(5, { demoStreamer with uid := 5 })] } "g1" 5 = .ok (true, s₁) ∧
      subscribeGroup s₁ "g1" 5 = .ok (false, s₁) ∧
      (groupUids s₁ "g1").count 5 = 1) ∧
    (∃ s₂, unsubscribeGroup removalDemoStore "g1" 5 = (true, s₂) ∧
      unsubscribeGroup s₂ "g1" 5 = (false, s₂)) := by
  have h₁ := subscribe_unsubscribe_twice
    { emptyStorage with streamers := [(5, { demoStreamer with uid := 5 })] }
    "g1" "u1" 5 (by rfl)
  have h₂ := subscribe_unsubscribe_twice removalDemoStore "g1" "u1" 5 (by rfl)
  exact ⟨h₁.1 (by decide), h₂.2.1 (by decide) (by decide)⟩

/-- C7 counterexample: with an existing watermark (5) and an empty
fetched list, `checkStreamerDynamic` returns early: the watermark stays
5 and is not set to the poll time 100. -/
theorem watermark_empty_fetch_counterexample :
    mget 9 (checkStreamerDynamic [(9, ⟨5⟩)] 9 true [] 100).2 =
      some { lastCheckTime := 5 } ∧
    ({ lastCheckTime := 5 } : DynamicCache) ≠ { lastCheckTime := 100 } := by
  exact ⟨rfl, by decide⟩

/-- C7 amended: for an entity with an existing watermark and a nonempty
fetched list (newest first, as the feed API returns it), exactly the
items whose publish time in milliseconds is strictly greater than the
watermark are selected; of those, the ones whose type is not in the
skip list are delivered, in ascending publish-time order; afterwards
the watermark is set to the poll time `now`, not to any item timestamp.
An empty fetched list (also the fetch-failure signal) returns early and
leaves the watermark unchanged. -/
theorem newItems_selection (dynamicCache : List (Nat × DynamicCache)) (uid : Nat)
    (dynamics : List DynamicInfo) (now : Nat) (cache : DynamicCache)
    (hc : mget uid dynamicCache = some cache)
    (hne : dynamics ≠ [])
    (hsorted : dynamics.Pairwise (fun a b => b.pubTs ≤ a.pubTs)) :
    (∀ d, d ∈ findNewDynamicsByTime dynamics cache.lastCheckTime ↔
       (d ∈ dynamics ∧ d.pubTs * 1000 > cache.lastCheckTime)) ∧
    (∀ d, d ∈ (checkStreamerDynamic dynamicCache uid true dynamics now).1 ↔
       (d ∈ dynamics ∧ d.pubTs * 1000 > cache.lastCheckTime ∧
        d.dtype ∉ SKIP_DYNAMIC_TYPES)) ∧
    List.Pairwise (fun a b => a.pubTs ≤ b.pubTs)
      (checkStreamerDynamic dynamicCache uid true dynamics now).1 ∧
    mget uid (checkStreamerDynamic dynamicCache uid true dynamics now).2 =
      some { lastCheckTime := now } := by
  have hE : dynamics.isEmpty = false := by
    cases dynamics with
    | nil => exact absurd rfl hne
    | cons a l => rfl
  refine ⟨?_, ?_, ?_, ?_⟩
  · intro d
    simp [findNewDynamicsByTime, List.mem_filter]
  · intro d
    simp [checkStreamerDynamic, hE, hc, findNewDynamicsByTime, and_assoc]
    try exact fun _ => and_comm
  · simp only [checkStreamerDynamic, hE, hc, Bool.not_true, Bool.false_eq_true,
      if_false, List.isEmpty_eq_true]
    exact List.pairwise_reverse.mpr ((hsorted.filter _).filter _)
  · simp [checkStreamerDynamic, hE, hc, mget_mset_self]

/-- C7 amended witness: watermark 4000, poll time 100000; of the
newest-first feed [pub 6, live pub 5, pub 3], the items published after
the watermark are selected, the live one skipped, the rest delivered
oldest-first, and the watermark becomes the poll time. -/
theorem newItems_selection_witness :
    (⟨"d2", DynamicType.word, 6, "b"⟩ ∈
      (checkStreamerDynamic [(9, ⟨4000⟩)] 9 true
        [⟨"d2", DynamicType.word, 6, "b"⟩, ⟨"dl", DynamicType.live, 5, "x"⟩,
         ⟨"d1", DynamicType.word, 3, "a"⟩] 100000).1 ↔
      (⟨"d2", DynamicType.word, 6, "b"⟩ ∈
        ([⟨"d2", DynamicType.word, 6, "b"⟩, ⟨"dl", DynamicType.live, 5, "x"⟩,
          ⟨"d1", DynamicType.word, 3, "a"⟩] : List DynamicInfo) ∧
       (6 : Nat) * 1000 > 4000 ∧ DynamicType.word ∉ SKIP_DYNAMIC_TYPES)) ∧
    mget 9 (checkStreamerDynamic [(9, ⟨4000⟩)] 9 true
        [⟨"d2", DynamicType.word, 6, "b"⟩, ⟨"dl", DynamicType.live, 5, "x"⟩,
         ⟨"d1", DynamicType.word, 3, "a"⟩] 100000).2 =
      some { lastCheckTime := 100000 } := by
  have h := newItems_selection [(9, ⟨4000⟩)] 9
    [⟨"d2", DynamicType.word, 6, "b"⟩, ⟨"dl", DynamicType.live, 5, "x"⟩,
     ⟨"d1", DynamicType.word, 3, "a"⟩] 100000 ⟨4000⟩ rfl (by decide)
    (by simp [List.pairwise_cons])
  exact ⟨h.2.1 ⟨"d2", DynamicType.word, 6, "b"⟩, h.2.2.2⟩

/-- C8: a group delivery built by `sendToSubscribers` contains the
at-all marker segment iff that group's `enableAtAll` flag is set, and
when present the marker (followed by a newline segment) precedes the
text segment; private deliveries to users never contain the marker; and
every group delivery goes to a group from the enabled-groups query. -/
theorem notify_at_all_marker (s : Storage) (uid : Nat) (msg : NotificationMessage) :
    (∀ b, MessageSegment.atAll ∈ buildMessageSegments msg b ↔ b = true) ∧
    (∀ b, b = true → ∃ rest, buildMessageSegments msg b =
       MessageSegment.atAll :: MessageSegment.text "\n" ::
         MessageSegment.text msg.text :: rest) ∧
    (∀ d ∈ sendToSubscribers s uid msg, d.kind = RecipientKind.group →
      ∃ sub ∈ getStreamerEnabledGroups s uid, sub.enabled = true ∧
        d.recipientId = sub.groupId ∧
        d.segments = buildMessageSegments msg sub.enableAtAll) ∧
    (∀ d ∈ sendToSubscribers s uid msg, d.kind = RecipientKind.user →
      MessageSegment.atAll ∉ d.segments) := by
  have hmem : ∀ b, MessageSegment.atAll ∈ buildMessageSegments msg b ↔ b = true := by
    intro b
    cases b <;> cases himg : msg.image <;> simp [buildMessageSegments, himg]
  have hgrp : ∀ d ∈ sendToSubscribers s uid msg, d.kind = RecipientKind.group →
      ∃ sub ∈ getStreamerEnabledGroups s uid, sub.enabled = true ∧
        d.recipientId = sub.groupId ∧
        d.segments = buildMessageSegments msg sub.enableAtAll := by
    intro d hd hk
    by_cases hz : (getStreamerEnabledGroups s uid).isEmpty &&
        (getStreamerSubscribedUsers s uid).isEmpty
    · simp [sendToSubscribers, hz] at hd
    · simp [sendToSubscribers, hz] at hd
      rcases hd with ⟨sub, hsub, rfl⟩ | ⟨usr, husr, rfl⟩
      · have hen : sub.enabled = true :=
          (List.mem_filter.mp hsub).2
        exact ⟨sub, hsub, hen, rfl, rfl⟩
      · simp at hk
  have husr : ∀ d ∈ sendToSubscribers s uid msg, d.kind = RecipientKind.user →
      MessageSegment.atAll ∉ d.segments := by
    intro d hd hk
    by_cases hz : (getStreamerEnabledGroups s uid).isEmpty &&
        (getStreamerSubscribedUsers s uid).isEmpty
    · simp [sendToSubscribers, hz] at hd
    · simp [sendToSubscribers, hz] at hd
      rcases hd with ⟨sub, hsub, rfl⟩ | ⟨usr, husr, rfl⟩
      · simp at hk
      · intro hmm
        exact absurd ((hmem false).mp hmm) (by decide)
  refine ⟨hmem, ?_, hgrp, husr⟩
  intro b hb
  subst hb
  cases himg : msg.image <;> simp [buildMessageSegments, himg]

/-- C8 witness: a store with an at-all group, a plain group, a disabled
group and a user; instantiating the theorem at it. -/
theorem notify_at_all_marker_witness :
    (MessageSegment.atAll ∈ buildMessageSegments ⟨"hi", none⟩ true ↔ True) ∧
    (∀ d ∈ sendToSubscribers notifyDemoStore 5 ⟨"hi", none⟩,
      d.kind = RecipientKind.user → MessageSegment.atAll ∉ d.segments) := by
  have h := notify_at_all_marker notifyDemoStore 5 ⟨"hi", none⟩
  exact ⟨by simpa using h.1 true, h.2.2.2⟩

theorem processStatusList_map_fst (statusMap : List (Nat × LiveRoomStatus))
    (l : List Streamer) (c : List (Nat × StreamerLiveCache)) :
    (processStatusList statusMap l c).1.map Prod.fst =
      (l.filter (fun st => (mget st.uid statusMap).isSome)).map Streamer.uid := by
  induction l generalizing c with
  | nil => simp [processStatusList]
  | cons st rest ih =>
    rcases hst : mget st.uid statusMap with _ | status <;>
      simp [processStatusList, hst, ih]

theorem processStatusList_cache_untouched (statusMap : List (Nat × LiveRoomStatus))
    (l : List Streamer) (c : List (Nat × StreamerLiveCache)) (uid : Nat)
    (h : uid ∉ l.map Streamer.uid) :
    mget uid (processStatusList statusMap l c).2 = mget uid c := by
  induction l generalizing c with
  | nil => simp [processStatusList]
  | cons st rest ih =>
    have hne : uid ≠ st.uid := by
      intro hh
      exact h (by simp [hh])
    have hrest : uid ∉ rest.map Streamer.uid := by
      intro hh
      exact h (by simp [hh])
    rcases hst : mget st.uid statusMap with _ | status
    · simp [processStatusList, hst, ih _ hrest]
    · simp [processStatusList, hst, processStreamerStatus, ih _ hrest,
        mget_mset_ne _ _ hne]

theorem processStatusList_cache_of_none (statusMap : List (Nat × LiveRoomStatus))
    (l : List Streamer) (c : List (Nat × StreamerLiveCache))
    (hnd : (l.map Streamer.uid).Nodup) (st : Streamer) (hst : st ∈ l)
    (hmiss : mget st.uid statusMap = none) :
    mget st.uid (processStatusList statusMap l c).2 = mget st.uid c := by
  induction l generalizing c with
  | nil => simp at hst
  | cons st₀ rest ih =>
    have hnd' : (rest.map Streamer.uid).Nodup := (List.nodup_cons.mp hnd).2
    rcases List.mem_cons.mp hst with heq | hmem
    · subst heq
      have hout : st.uid ∉ rest.map Streamer.uid := (List.nodup_cons.mp hnd).1
      simp [processStatusList, hmiss,
        processStatusList_cache_untouched statusMap rest c st.uid hout]
    · have hne : st.uid ≠ st₀.uid := by
        intro hh
        exact (List.nodup_cons.mp hnd).1 (hh ▸ (List.mem_map_of_mem Streamer.uid hmem))
      rcases hst₀ : mget st₀.uid statusMap with _ | status
      · simpa [processStatusList, hst₀] using ih _ hnd' hmem
      · simp only [processStatusList, hst₀]
        rw [ih _ hnd' hmem]
        simp [processStreamerStatus, mget_mset_ne _ _ hne]

theorem checkStreamerDynamic_nil (c : List (Nat × DynamicCache)) (uid₀ : Nat)
    (found : Bool) (now : Nat) :
    checkStreamerDynamic c uid₀ found [] now = ([], c) := by
  cases found <;> simp [checkStreamerDynamic]

theorem checkStreamerDynamic_cache_ne (c : List (Nat × DynamicCache)) (uid₀ : Nat)
    (found : Bool) (dynamics : List DynamicInfo) (now : Nat) (uid : Nat)
    (h : uid ≠ uid₀) :
    mget uid (checkStreamerDynamic c uid₀ found dynamics now).2 = mget uid c := by
  cases found
  · simp [checkStreamerDynamic]
  · rcases hE : dynamics.isEmpty with _ | _
    · rcases hc : mget uid₀ c with _ | cache <;>
        simp [checkStreamerDynamic, hE, hc, mget_mset_ne _ _ h]
    · simp [checkStreamerDynamic, hE]

theorem processDynamicList_map_fst (store : Storage) (fetch : Nat → List DynamicInfo)
    (now : Nat) (l : List Streamer) (c : List (Nat × DynamicCache)) :
    (processDynamicList store fetch now l c).1.map Prod.fst = l.map Streamer.uid := by
  induction l generalizing c with
  | nil => simp [processDynamicList]
  | cons st rest ih => simp [processDynamicList, ih]

theorem processDynamicList_cache_untouched (store : Storage)
    (fetch : Nat → List DynamicInfo) (now : Nat) (l : List Streamer)
    (c : List (Nat × DynamicCache)) (uid : Nat) (h : uid ∉ l.map Streamer.uid) :
    mget uid (processDynamicList store fetch now l c).2 = mget uid c := by
  induction l generalizing c with
  | nil => simp [processDynamicList]
  | cons st rest ih =>
    have hne : uid ≠ st.uid := by
      intro hh
      exact h (by simp [hh])
    have hrest : uid ∉ rest.map Streamer.uid := by
      intro hh
      exact h (by simp [hh])
    simp only [processDynamicList]
    rw [ih _ hrest, checkStreamerDynamic_cache_ne _ _ _ _ _ _ hne]

theorem processDynamicList_entry (store : Storage) (fetch : Nat → List DynamicInfo)
    (now : Nat) (l : List Streamer) (c : List (Nat × DynamicCache))
    (hnd : (l.map Streamer.uid).Nodup) (st : Streamer) (hst : st ∈ l)
    (hf : fetch st.uid = []) :
    (st.uid, ([] : List DynamicInfo)) ∈ (processDynamicList store fetch now l c).1 ∧
    mget st.uid (processDynamicList store fetch now l c).2 = mget st.uid c := by
  induction l generalizing c with
  | nil => simp at hst
  | cons st₀ rest ih =>
    have hnd' : (rest.map Streamer.uid).Nodup := (List.nodup_cons.mp hnd).2
    rcases List.mem_cons.mp hst with heq | hmem
    · subst heq
      have hout : st.uid ∉ rest.map Streamer.uid := (List.nodup_cons.mp hnd).1
      constructor
      · simp [processDynamicList, hf, checkStreamerDynamic_nil]
      · simp [processDynamicList, hf, checkStreamerDynamic_nil,
          processDynamicList_cache_untouched store fetch now rest _ st.uid hout]
    · have hne : st.uid ≠ st₀.uid := by
        intro hh
        exact (List.nodup_cons.mp hnd).1 (hh ▸ (List.mem_map_of_mem Streamer.uid hmem))
      have hih := ih
        (checkStreamerDynamic c st₀.uid (mget st₀.uid store.streamers).isSome
          (fetch st₀.uid) now).2 hnd' hmem
      constructor
      · simp only [processDynamicList, List.mem_cons]
        exact Or.inr (by
          have := hih.1
          simpa using this)
      · simp only [processDynamicList]
        rw [hih.2, checkStreamerDynamic_cache_ne _ _ _ _ _ _ hne]

/-- C9: in one poll cycle, a per-entity failure does not abort the rest
of the cycle.  In the code every per-entity error is caught below the
cycle loop and surfaces as missing data — the batch status fetcher
catches all errors and returns the entries it obtained, and the
per-entity feed fetcher catches all errors and returns an empty list —
so failure is modelled as a missing status-map entry (live cycle) or an
empty fetched list (dynamic cycle).  Live cycle: the entities processed
are exactly the subscribed ones with a status, in order, and a failed
entity's cache entry is unchanged.  Dynamic cycle: every subscribed
entity is attempted in order, and a failed entity sends nothing and
keeps its cache entry unchanged. -/
theorem poll_cycle_fail_soft (store : Storage)
    (liveCache : List (Nat × StreamerLiveCache))
    (statusMap : List (Nat × LiveRoomStatus))
    (dynamicCache : List (Nat × DynamicCache))
    (fetch : Nat → List DynamicInfo) (now : Nat)
    (hnd : ((subscribedStreamers store).map Streamer.uid).Nodup) :
    ((checkAllStreamersLive store liveCache statusMap).1.map Prod.fst =
      ((subscribedStreamers store).filter
        (fun st => (mget st.uid statusMap).isSome)).map Streamer.uid) ∧
    (∀ st ∈ subscribedStreamers store, mget st.uid statusMap = none →
      mget st.uid (checkAllStreamersLive store liveCache statusMap).2 =
        mget st.uid liveCache) ∧
    ((checkAllStreamersDynamic store dynamicCache fetch now).1.map Prod.fst =
      (subscribedStreamers store).map Streamer.uid) ∧
    (∀ st ∈ subscribedStreamers store, fetch st.uid = [] →
      (st.uid, ([] : List DynamicInfo)) ∈
        (checkAllStreamersDynamic store dynamicCache fetch now).1 ∧
      mget st.uid (checkAllStreamersDynamic store dynamicCache fetch now).2 =
        mget st.uid dynamicCache) := by
  refine ⟨processStatusList_map_fst _ _ _, ?_, processDynamicList_map_fst _ _ _ _ _, ?_⟩
  · intro st hst hmiss
    exact processStatusList_cache_of_none statusMap _ liveCache hnd st hst hmiss
  · intro st hst hf
    exact processDynamicList_entry store fetch now _ dynamicCache hnd st hst hf

/-- C9 witness: two subscribed entities; the status fetch fails for
entity 5 (missing from the batch map) while entity 6 is still
processed, and the feed fetch fails for entity 5 (empty list) while the
cycle still visits both entities. -/
theorem poll_cycle_fail_soft_witness :
    ((checkAllStreamersLive failSoftDemoStore [] [(6, { demoLive with uid := 6 })]).1.map
        Prod.fst =
      ((subscribedStreamers failSoftDemoStore).filter
        (fun st => (mget st.uid [(6, { demoLive with uid := 6 })]).isSome)).map
          Streamer.uid) ∧
    ((checkAllStreamersDynamic failSoftDemoStore [(5, ⟨3⟩)]
        (fun _ => []) 100).1.map Prod.fst =
      (subscribedStreamers failSoftDemoStore).map Streamer.uid) := by
  have h := poll_cycle_fail_soft failSoftDemoStore [] [(6, { demoLive with uid := 6 })]
    [(5, ⟨3⟩)] (fun _ => []) 100 (by decide)
  exact ⟨h.1, h.2.2.1⟩

theorem filter_fst_mset_congr {K V : Type} [DecidableEq K] (Q : V → Bool) {g : K}
    {sub : V} (sub' : V) {l : List (K × V)} (hget : mget g l = some sub)
    (hQ : Q sub' = Q sub) :
    ((mset g sub' l).filter (fun p => Q p.2)).map (·.1) =
      (l.filter (fun p => Q p.2)).map (·.1) := by
  induction l with
  | nil => simp [mget] at hget
  | cons p rest ih =>
    obtain ⟨k₀, v₀⟩ := p
    by_cases h₀ : k₀ = g
    · subst h₀
      have hv : v₀ = sub := by simpa [mget] using hget
      subst hv
      rcases hQv : Q v₀ with _ | _ <;>
        simp [mset, List.filter, hQ, hQv]
    · simp only [mget, if_neg h₀] at hget
      rcases hQv : Q v₀ with _ | _ <;>
        simp [mset, h₀, List.filter, hQv, ih hget]

theorem filter_fst_mset_new {K V : Type} [DecidableEq K] (Q : V → Bool) {g : K}
    (sub' : V) {l : List (K × V)} (hget : mget g l = none) (hQ : Q sub' = false) :
    ((mset g sub' l).filter (fun p => Q p.2)).map (·.1) =
      (l.filter (fun p => Q p.2)).map (·.1) := by
  induction l with
  | nil => simp [mset, List.filter, hQ]
  | cons p rest ih =>
    obtain ⟨k₀, v₀⟩ := p
    have h₀ : k₀ ≠ g := by
      intro hh
      simp [mget, hh] at hget
    simp only [mget, if_neg h₀] at hget
    rcases hQv : Q v₀ with _ | _ <;>
      simp [mset, h₀, List.filter, hQv, ih hget]

theorem filter_fst_map_congr {K V : Type} (Q : V → Bool) (f : V → V)
    (l : List (K × V)) (h : ∀ p ∈ l, Q (f p.2) = Q p.2) :
    ((l.map (fun p => (p.1, f p.2))).filter (fun p => Q p.2)).map (·.1) =
      (l.filter (fun p => Q p.2)).map (·.1) := by
  induction l with
  | nil => simp
  | cons p rest ih =>
    obtain ⟨k₀, v₀⟩ := p
    have hh := h (k₀, v₀) (List.mem_cons_self _ _)
    have hrest : ∀ p ∈ rest, Q (f p.2) = Q p.2 :=
      fun p hp => h p (List.mem_cons_of_mem _ hp)
    rcases hQv : Q v₀ with _ | _ <;>
      simp_all [List.filter, ih hrest]

theorem indexGroups_update_self (t : Storage) (uid : Nat) :
    indexGroups (updateStreamerIndex t uid) uid = groupsContaining t uid := by
  simp [indexGroups, updateStreamerIndex, mget_mset_self, groupsContaining]

theorem indexUsers_update_self (t : Storage) (uid : Nat) :
    indexUsers (updateStreamerIndex t uid) uid = usersContaining t uid := by
  simp [indexUsers, updateStreamerIndex, mget_mset_self, usersContaining]

theorem indexGroups_update_ne (t : Storage) {uid uid' : Nat} (h : uid' ≠ uid) :
    indexGroups (updateStreamerIndex t uid) uid' = indexGroups t uid' := by
  simp [indexGroups, updateStreamerIndex, mget_mset_ne _ _ h]

theorem indexUsers_update_ne (t : Storage) {uid uid' : Nat} (h : uid' ≠ uid) :
    indexUsers (updateStreamerIndex t uid) uid' = indexUsers t uid' := by
  simp [indexUsers, updateStreamerIndex, mget_mset_ne _ _ h]

theorem groupsContaining_update (t : Storage) (uid uid' : Nat) :
    groupsContaining (updateStreamerIndex t uid) uid' = groupsContaining t uid' := rfl

theorem usersContaining_update (t : Storage) (uid uid' : Nat) :
    usersContaining (updateStreamerIndex t uid) uid' = usersContaining t uid' := rfl

theorem consistent_afterSubGroup (s : Storage) (g : String) (uid : Nat)
    (hC : Consistent s) (hn : uid ∉ groupUids s g) :
    Consistent (afterSubGroup s g uid) := by
  obtain ⟨hN, hI⟩ := hC
  have hNodupNew : (newGroupSub s g uid).streamerUids.Nodup := by
    rcases hg : mget g s.groupSubs with _ | sub
    · simp [newGroupSub, hg]
    · have hnd := hN.1 (g, sub) (mget_mem hg)
      have hn' : uid ∉ sub.streamerUids := by simpa [groupUids, hg] using hn
      simp only [newGroupSub, hg]
      rw [List.nodup_append]
      exact ⟨hnd, List.nodup_singleton uid, by
        intro a ha hb
        rw [List.mem_singleton] at hb
        exact hn' (hb ▸ ha)⟩
  constructor
  · constructor
    · intro p hp
      have hp' : p ∈ mset g (newGroupSub s g uid) s.groupSubs := hp
      rcases mem_mset hp' with heq | hmem
      · subst heq
        exact hNodupNew
      · exact hN.1 p hmem
    · intro p hp
      exact hN.2 p hp
  · intro uid₀
    by_cases he : uid₀ = uid
    · subst he
      constructor
      · intro g₀
        rw [show afterSubGroup s g uid₀ = updateStreamerIndex
              { s with groupSubs := mset g (newGroupSub s g uid₀) s.groupSubs } uid₀ from rfl,
            indexGroups_update_self, groupsContaining_update]
      · intro u₀
        rw [show afterSubGroup s g uid₀ = updateStreamerIndex
              { s with groupSubs := mset g (newGroupSub s g uid₀) s.groupSubs } uid₀ from rfl,
            indexUsers_update_self, usersContaining_update]
    · have hGC : groupsContaining (afterSubGroup s g uid) uid₀ = groupsContaining s uid₀ := by
        rw [show afterSubGroup s g uid = updateStreamerIndex
              { s with groupSubs := mset g (newGroupSub s g uid) s.groupSubs } uid from rfl,
            groupsContaining_update]
        rcases hg : mget g s.groupSubs with _ | sub
        · have hQ : decide (uid₀ ∈ (newGroupSub s g uid).streamerUids) = false := by
            simp [newGroupSub, hg, he]
          exact filter_fst_mset_new (fun v => decide (uid₀ ∈ v.streamerUids)) _ hg hQ
        · have hQ : decide (uid₀ ∈ (newGroupSub s g uid).streamerUids) =
              decide (uid₀ ∈ sub.streamerUids) := by
            simp only [newGroupSub, hg]
            exact decide_eq_decide.mpr (by simp [he])
          exact filter_fst_mset_congr (fun v => decide (uid₀ ∈ v.streamerUids)) _ hg hQ
      have hUC : usersContaining (afterSubGroup s g uid) uid₀ = usersContaining s uid₀ := rfl
      have hIG : indexGroups (afterSubGroup s g uid) uid₀ = indexGroups s uid₀ :=
        indexGroups_update_ne _ he
      have hIU : indexUsers (afterSubGroup s g uid) uid₀ = indexUsers s uid₀ :=
        indexUsers_update_ne _ he
      rw [hGC, hUC, hIG, hIU]
      exact hI uid₀

theorem consistent_afterSubUser (s : Storage) (u : String) (uid : Nat)
    (hC : Consistent s) (hn : uid ∉ userUids s u) :
    Consistent (afterSubUser s u uid) := by
  obtain ⟨hN, hI⟩ := hC
  have hNodupNew : (newUserSub s u uid).streamerUids.Nodup := by
    rcases hu : mget u s.userSubs with _ | sub
    · simp [newUserSub, hu]
    · have hnd := hN.2 (u, sub) (mget_mem hu)
      have hn' : uid ∉ sub.streamerUids := by simpa [userUids, hu] using hn
      simp only [newUserSub, hu]
      rw [List.nodup_append]
      exact ⟨hnd, List.nodup_singleton uid, by
        intro a ha hb
        rw [List.mem_singleton] at hb
        exact hn' (hb ▸ ha)⟩
  constructor
  · constructor
    · intro p hp
      exact hN.1 p hp
    · intro p hp
      have hp' : p ∈ mset u (newUserSub s u uid) s.userSubs := hp
      rcases mem_mset hp' with heq | hmem
      · subst heq
        exact hNodupNew
      · exact hN.2 p hmem
  · intro uid₀
    by_cases he : uid₀ = uid
    · subst he
      constructor
      · intro g₀
        rw [show afterSubUser s u uid₀ = updateStreamerIndex
              { s with userSubs := mset u (newUserSub s u uid₀) s.userSubs } uid₀ from rfl,
            indexGroups_update_self, groupsContaining_update]
      · intro u₀
        rw [show afterSubUser s u uid₀ = updateStreamerIndex
              { s with userSubs := mset u (newUserSub s u uid₀) s.userSubs } uid₀ from rfl,
            indexUsers_update_self, usersContaining_update]
    · have hUC : usersContaining (afterSubUser s u uid) uid₀ = usersContaining s uid₀ := by
        rw [show afterSubUser s u uid = updateStreamerIndex
              { s with userSubs := mset u (newUserSub s u uid) s.userSubs } uid from rfl,
            usersContaining_update]
        rcases hu : mget u s.userSubs with _ | sub
        · have hQ : decide (uid₀ ∈ (newUserSub s u uid).streamerUids) = false := by
            simp [newUserSub, hu, he]
          exact filter_fst_mset_new (fun v => decide (uid₀ ∈ v.streamerUids)) _ hu hQ
        · have hQ : decide (uid₀ ∈ (newUserSub s u uid).streamerUids) =
              decide (uid₀ ∈ sub.streamerUids) := by
            simp only [newUserSub, hu]
            exact decide_eq_decide.mpr (by simp [he])
          exact filter_fst_mset_congr (fun v => decide (uid₀ ∈ v.streamerUids)) _ hu hQ
      have hGC : groupsContaining (afterSubUser s u uid) uid₀ = groupsContaining s uid₀ := rfl
      have hIG : indexGroups (afterSubUser s u uid) uid₀ = indexGroups s uid₀ :=
        indexGroups_update_ne _ he
      have hIU : indexUsers (afterSubUser s u uid) uid₀ = indexUsers s uid₀ :=
        indexUsers_update_ne _ he
      rw [hGC, hUC, hIG, hIU]
      exact hI uid₀

theorem consistent_afterUnsubGroup (s : Storage) (g : String) (uid : Nat)
    (hC : Consistent s) : Consistent (afterUnsubGroup s g uid) := by
  obtain ⟨hN, hI⟩ := hC
  rcases hg : mget g s.groupSubs with _ | sub
  · simpa [afterUnsubGroup, hg] using ⟨hN, hI⟩
  · constructor
    · constructor
      · intro p hp
        have hp' : p ∈ mset g { sub with streamerUids := sub.streamerUids.erase uid }
            s.groupSubs := by
          simpa [afterUnsubGroup, hg, updateStreamerIndex] using hp
        rcases mem_mset hp' with heq | hmem
        · subst heq
          exact (hN.1 (g, sub) (mget_mem hg)).erase uid
        · exact hN.1 p hmem
      · intro p hp
        have hp' : p ∈ s.userSubs := by
          simpa [afterUnsubGroup, hg, updateStreamerIndex] using hp
        exact hN.2 p hp'
    · intro uid₀
      by_cases he : uid₀ = uid
      · subst he
        have hrw : afterUnsubGroup s g uid₀ = updateStreamerIndex
            { s with groupSubs := mset g (eraseUidG sub uid₀) s.groupSubs } uid₀ := by
          simp [afterUnsubGroup, hg, eraseUidG]
        constructor
        · intro g₀
          rw [hrw, indexGroups_update_self, groupsContaining_update]
        · intro u₀
          rw [hrw, indexUsers_update_self, usersContaining_update]
      · have hrw : afterUnsubGroup s g uid = updateStreamerIndex
            { s with groupSubs := mset g (eraseUidG sub uid) s.groupSubs } uid := by
          simp [afterUnsubGroup, hg, eraseUidG]
        have hGC : groupsContaining (afterUnsubGroup s g uid) uid₀ =
            groupsContaining s uid₀ := by
          rw [hrw, groupsContaining_update]
          have hQ : decide (uid₀ ∈ sub.streamerUids.erase uid) =
              decide (uid₀ ∈ sub.streamerUids) :=
            decide_eq_decide.mpr (List.mem_erase_of_ne he)
          exact filter_fst_mset_congr (fun v => decide (uid₀ ∈ v.streamerUids))
            (eraseUidG sub uid) hg hQ
        have hUC : usersContaining (afterUnsubGroup s g uid) uid₀ =
            usersContaining s uid₀ := by
          rw [hrw, usersContaining_update]
          rfl
        have hIG : indexGroups (afterUnsubGroup s g uid) uid₀ = indexGroups s uid₀ := by
          rw [hrw, indexGroups_update_ne _ he]
          rfl
        have hIU : indexUsers (afterUnsubGroup s g uid) uid₀ = indexUsers s uid₀ := by
          rw [hrw, indexUsers_update_ne _ he]
          rfl
        rw [hGC, hUC, hIG, hIU]
        exact hI uid₀

theorem consistent_afterUnsubUser (s : Storage) (u : String) (uid : Nat)
    (hC : Consistent s) : Consistent (afterUnsubUser s u uid) := by
  obtain ⟨hN, hI⟩ := hC
  rcases hu : mget u s.userSubs with _ | sub
  · simpa [afterUnsubUser, hu] using ⟨hN, hI⟩
  · constructor
    · constructor
      · intro p hp
        have hp' : p ∈ s.groupSubs := by
          simpa [afterUnsubUser, hu, updateStreamerIndex] using hp
        exact hN.1 p hp'
      · intro p hp
        have hp' : p ∈ mset u { sub with streamerUids := sub.streamerUids.erase uid }
            s.userSubs := by
          simpa [afterUnsubUser, hu, updateStreamerIndex] using hp
        rcases mem_mset hp' with heq | hmem
        · subst heq
          exact (hN.2 (u, sub) (mget_mem hu)).erase uid
        · exact hN.2 p hmem
    · intro uid₀
      by_cases he : uid₀ = uid
      · subst he
        have hrw : afterUnsubUser s u uid₀ = updateStreamerIndex
            { s with userSubs := mset u (eraseUidU sub uid₀) s.userSubs } uid₀ := by
          simp [afterUnsubUser, hu, eraseUidU]
        constructor
        · intro g₀
          rw [hrw, indexGroups_update_self, groupsContaining_update]
        · intro u₀
          rw [hrw, indexUsers_update_self, usersContaining_update]
      · have hrw : afterUnsubUser s u uid = updateStreamerIndex
            { s with userSubs := mset u (eraseUidU sub uid) s.userSubs } uid := by
          simp [afterUnsubUser, hu, eraseUidU]
        have hUC : usersContaining (afterUnsubUser s u uid) uid₀ =
            usersContaining s uid₀ := by
          rw [hrw, usersContaining_update]
          have hQ : decide (uid₀ ∈ sub.streamerUids.erase uid) =
              decide (uid₀ ∈ sub.streamerUids) :=
            decide_eq_decide.mpr (List.mem_erase_of_ne he)
          exact filter_fst_mset_congr (fun v => decide (uid₀ ∈ v.streamerUids))
            (eraseUidU sub uid) hu hQ
        have hGC : groupsContaining (afterUnsubUser s u uid) uid₀ =
            groupsContaining s uid₀ := by
          rw [hrw, groupsContaining_update]
          rfl
        have hIG : indexGroups (afterUnsubUser s u uid) uid₀ = indexGroups s uid₀ := by
          rw [hrw, indexGroups_update_ne _ he]
          rfl
        have hIU : indexUsers (afterUnsubUser s u uid) uid₀ = indexUsers s uid₀ := by
          rw [hrw, indexUsers_update_ne _ he]
          rfl
        rw [hGC, hUC, hIG, hIU]
        exact hI uid₀

theorem consistent_removeStreamer (s : Storage) (uid : Nat) (hC : Consistent s) :
    Consistent (removeStreamer s uid).2 := by
  obtain ⟨hN, hI⟩ := hC
  by_cases hs : (mget uid s.streamers).isSome
  · constructor
    · constructor
      · intro p hp
        simp only [removeStreamer, hs, if_pos, List.mem_map] at hp
        obtain ⟨q, hq, hqp⟩ := hp
        subst hqp
        exact (hN.1 q hq).erase uid
      · intro p hp
        simp only [removeStreamer, hs, if_pos, List.mem_map] at hp
        obtain ⟨q, hq, hqp⟩ := hp
        subst hqp
        exact (hN.2 q hq).erase uid
    · intro uid₀
      by_cases he : uid₀ = uid
      · subst he
        constructor
        · intro g₀
          have hL : indexGroups (removeStreamer s uid₀).2 uid₀ = [] := by
            simp [removeStreamer, hs, indexGroups, mget_mdel_self]
          have hR : groupsContaining (removeStreamer s uid₀).2 uid₀ = [] := by
            simp only [removeStreamer, hs, if_pos, groupsContaining]
            rw [List.filter_eq_nil_iff.mpr, List.map_nil]
            intro p hp
            rw [List.mem_map] at hp
            obtain ⟨q, hq, hqp⟩ := hp
            subst hqp
            simp only [decide_eq_true_eq]
            exact (hN.1 q hq).not_mem_erase
          rw [hL, hR]
        · intro u₀
          have hL : indexUsers (removeStreamer s uid₀).2 uid₀ = [] := by
            simp [removeStreamer, hs, indexUsers, mget_mdel_self]
          have hR : usersContaining (removeStreamer s uid₀).2 uid₀ = [] := by
            simp only [removeStreamer, hs, if_pos, usersContaining]
            rw [List.filter_eq_nil_iff.mpr, List.map_nil]
            intro p hp
            rw [List.mem_map] at hp
            obtain ⟨q, hq, hqp⟩ := hp
            subst hqp
            simp only [decide_eq_true_eq]
            exact (hN.2 q hq).not_mem_erase
          rw [hL, hR]
      · have hIG : indexGroups (removeStreamer s uid).2 uid₀ = indexGroups s uid₀ := by
          simp [removeStreamer, hs, indexGroups, mget_mdel_ne _ he]
        have hIU : indexUsers (removeStreamer s uid).2 uid₀ = indexUsers s uid₀ := by
          simp [removeStreamer, hs, indexUsers, mget_mdel_ne _ he]
        have hGC : groupsContaining (removeStreamer s uid).2 uid₀ =
            groupsContaining s uid₀ := by
          simp only [removeStreamer, hs, if_pos, groupsContaining]
          exact filter_fst_map_congr (fun v => decide (uid₀ ∈ v.streamerUids))
            (fun v => { v with streamerUids := v.streamerUids.erase uid }) s.groupSubs
            (fun p _ => decide_eq_decide.mpr (List.mem_erase_of_ne he))
        have hUC : usersContaining (removeStreamer s uid).2 uid₀ =
            usersContaining s uid₀ := by
          simp only [removeStreamer, hs, if_pos, usersContaining]
          exact filter_fst_map_congr (fun v => decide (uid₀ ∈ v.streamerUids))
            (fun v => { v with streamerUids := v.streamerUids.erase uid }) s.userSubs
            (fun p _ => decide_eq_decide.mpr (List.mem_erase_of_ne he))
        rw [hIG, hIU, hGC, hUC]
        exact hI uid₀
  · have hs' : (mget uid s.streamers).isSome = false := by simpa using hs
    simpa [removeStreamer, hs'] using ⟨hN, hI⟩

theorem consistent_applyOp (s : Storage) (op : StoreOp) (hC : Consistent s) :
    Consistent (applyOp s op) := by
  cases op with
  | subGroup g uid =>
    by_cases hs : (mget uid s.streamers).isSome
    · by_cases hm : uid ∈ groupUids s g
      · simpa [applyOp, subscribeGroup_already s g uid hs hm] using hC
      · simpa [applyOp, subscribeGroup_success s g uid hs hm] using
          consistent_afterSubGroup s g uid hC hm
    · have hs' : (mget uid s.streamers).isSome = false := by simpa using hs
      simpa [applyOp, subscribeGroup, hs'] using hC
  | unsubGroup g uid =>
    by_cases hm : uid ∈ groupUids s g
    · simpa [applyOp, unsubscribeGroup_mem s g uid hm] using
        consistent_afterUnsubGroup s g uid hC
    · simpa [applyOp, unsubscribeGroup_not_mem s g uid hm] using hC
  | subUser u uid =>
    by_cases hs : (mget uid s.streamers).isSome
    · by_cases hm : uid ∈ userUids s u
      · simpa [applyOp, subscribeUser_already s u uid hs hm] using hC
      · simpa [applyOp, subscribeUser_success s u uid hs hm] using
          consistent_afterSubUser s u uid hC hm
    · have hs' : (mget uid s.streamers).isSome = false := by simpa using hs
      simpa [applyOp, subscribeUser, hs'] using hC
  | unsubUser u uid =>
    by_cases hm : uid ∈ userUids s u
    · simpa [applyOp, unsubscribeUser_mem s u uid hm] using
        consistent_afterUnsubUser s u uid hC
    · simpa [applyOp, unsubscribeUser_not_mem s u uid hm] using hC
  | removeStr uid =>
    simpa [applyOp] using consistent_removeStreamer s uid hC

theorem consistent_applyOps (s : Storage) (ops : List StoreOp) (hC : Consistent s) :
    Consistent (applyOps s ops) := by
  induction ops generalizing s with
  | nil => simpa [applyOps] using hC
  | cons op rest ih =>
    have h₁ := consistent_applyOp s op hC
    simpa [applyOps, List.foldl_cons] using ih (applyOp s op) h₁

/-- C1: for every sequence of subscribe/unsubscribe/remove operations
starting from a consistent store and every entity uid, the reverse-index
rows for uid equal, as sets, exactly the group ids and user ids whose
stored `streamerUids` list currently contains uid — after every
mutation (every intermediate state is `applyOps` of a prefix, so the
statement over all operation lists covers each mutation point). -/
theorem reverse_index_invariant (s : Storage) (ops : List StoreOp) (uid : Nat)
    (hC : Consistent s) :
    (∀ g, g ∈ indexGroups (applyOps s ops) uid ↔
       g ∈ groupsContaining (applyOps s ops) uid) ∧
    (∀ u, u ∈ indexUsers (applyOps s ops) uid ↔
       u ∈ usersContaining (applyOps s ops) uid) :=
  (consistent_applyOps s ops hC).2 uid

/-- C1 witness: a concrete operation sequence (group subscribes, a user
subscribe, an unsubscribe and an entity removal, with a redundant
subscribe and an unknown-entity subscribe mixed in) over a consistent
initial store; the invariant instance is checked for entity 5. -/
theorem reverse_index_invariant_witness :
    (∀ g, g ∈ indexGroups (applyOps indexDemoStore indexDemoOps) 5 ↔
       g ∈ groupsContaining (applyOps indexDemoStore indexDemoOps) 5) ∧
    (∀ u, u ∈ indexUsers (applyOps indexDemoStore indexDemoOps) 5 ↔
       u ∈ usersContaining (applyOps indexDemoStore indexDemoOps) 5) := by
  have hC : Consistent indexDemoStore := by
    constructor
    · constructor <;> intro p hp <;> simp [indexDemoStore] at hp
    · intro uid
      constructor <;> intro x <;>
        simp [indexGroups, indexUsers, groupsContaining, usersContaining,
          indexDemoStore, mget]
  exact reverse_index_invariant indexDemoStore indexDemoOps 5 hC

end BiliNotifier
